import Mathlib

/-!
Verification of the text model resolution service
(`TextModelResolverService`, `ResourceModelCollection`,
`ModelChangeEventEmitter`) from
`vs/workbench/services/textmodelResolver`.

The TypeScript source is embedded shallowly:

* URIs are pairs of a scheme and a path; the cache key of a resource is
  its string rendering, as produced by `uri.toString()`.
* A content provider instance is identified by a numeric `id` standing
  for JavaScript object identity; the behaviour of provider `i`
  (its `provideTextContent` method) is supplied externally as a function
  `env : Nat → Uri → Option String`, `none` standing for a null result
  and `some c` for a model with content `c`.
* The maps (`providers`, `_modelSaver`, the reference-count table) are
  association lists keyed by strings, mirroring the JavaScript objects
  and `Map`s of the source.
* Asynchronous promises are collapsed to values of `Except String α`:
  a rejected promise (or a thrown error) is `Except.error` with the
  message of the source, a resolved one is `Except.ok`.
* Event emission is modelled by returning the list of events fired, in
  order.
-/

set_option autoImplicit false

deriving instance DecidableEq for Except

namespace TextModelResolver

/-- URIs, reduced to the parts the service inspects: the scheme and an
opaque remainder. `URI.parse ∘ toString` is the identity on this model. -/
structure Uri where
  scheme : String
  path : String
deriving DecidableEq, Repr

/-- Rendering of a URI used as cache key (`resource.toString()`). -/
def uriToString (u : Uri) : String :=
  u.scheme ++ "://" ++ u.path

/-- A registered content provider instance; `id` stands for JavaScript
object identity (`indexOf` compares by identity). -/
structure Provider where
  id : Nat
deriving DecidableEq, Repr

/-- A text model of the model service registry: an identity and the URI
it is registered under. -/
structure Model where
  id : Nat
  uri : Uri
deriving DecidableEq, Repr

/-- The event types of `ITextModelStateChangeEvent`. -/
inductive StateChangeType where
  | dirty
  | saving
  | saved
  | reverted
deriving DecidableEq, Repr

/-- A state change event fired on `_onDidChangeState`. -/
structure StateChangeEvent where
  type : StateChangeType
  resource : Uri
deriving DecidableEq, Repr

/-! ## Association-list primitives

The JavaScript `Object.create(null)` registries and `Map`s are modelled
as association lists with (in every reachable state) pairwise distinct
keys. -/

/-- First value stored under key `k`, like `map.get(k)` / `registry[k]`. -/
def alistLookup {α : Type} (l : List (String × α)) (k : String) : Option α :=
  (l.find? (fun e => e.1 = k)).map (fun e => e.2)

/-- Replace the value stored under key `k` (all entries with that key). -/
def alistSet {α : Type} (l : List (String × α)) (k : String) (v : α) :
    List (String × α) :=
  l.map (fun e => if e.1 = k then (k, v) else e)

/-- Remove every entry with key `k`, like `map.delete(k)` /
`delete registry[k]` on a map with distinct keys. -/
def alistRemove {α : Type} (l : List (String × α)) (k : String) :
    List (String × α) :=
  l.filter (fun e => ¬ (e.1 = k))

/-- The keys of the map are pairwise distinct. -/
def alistKeysNodup {α : Type} (l : List (String × α)) : Prop :=
  (l.map Prod.fst).Nodup


/-! ## Saver registration and save orchestration

Embeds `TextModelResolverService.registerTextModelSaver`, the disposable
it returns, `save` and `supportsSave`. A saver instance is identified by
a `Nat`; its `saveTextContent` behaviour is supplied externally. -/

/-- The `_modelSaver : Map<string, ITextModelSaver>` map, savers being
identified by `Nat`. -/
abbrev SaverMap := List (String × Nat)

/-- Embeds `registerTextModelSaver(scheme, saver)`. Returns the saver map
after the call together with either the thrown error (map untouched) or
the token captured by the returned disposable. The disposable closure of
the source captures only `scheme`, so the token is the scheme itself. -/
def registerTextModelSaver (sv : SaverMap) (scheme : String) (saver : Nat) :
    SaverMap × Except String String :=
  if (alistLookup sv scheme).isSome then
    (sv, Except.error "there can only be one saver for the scheme")
  else
    (sv ++ [(scheme, saver)], Except.ok scheme)

/-- Embeds the `dispose` closure returned by `registerTextModelSaver`:
`this._modelSaver.delete(scheme)`, keyed purely by the captured scheme. -/
def disposeSaverRegistration (sv : SaverMap) (token : String) : SaverMap :=
  alistRemove sv token

/-- Embeds `supportsSave(resource)`. -/
def supportsSave (sv : SaverMap) (resource : Uri) : Bool :=
  (alistLookup sv resource.scheme).isSome

/-- Embeds `modelService.getModel(resource)`: the registered model whose
URI is `resource`, if any. -/
def getModel (models : List Model) (resource : Uri) : Option Model :=
  models.find? (fun m => m.uri = resource)

/-- The complete observable outcome of one `save` call: the state change
events fired on `_onDidChangeState`, in order; the settled promise; and
the saver map and model registry after the call. -/
structure SaveOutcome where
  events : List StateChangeEvent
  result : Except String Unit
  savers : SaverMap
  models : List Model
deriving DecidableEq, Repr

/-- Embeds `save(resource, options)`. `saverRun i` is the settled result
of saver `i`.`saveTextContent(resource, model, options)`. The source
mutates neither the saver map nor the model registry, which the outcome
records by passing both through. -/
def save (models : List Model) (sv : SaverMap)
    (saverRun : Nat → Except String Unit) (resource : Uri) : SaveOutcome :=
  match getModel models resource with
  | none => ⟨[], Except.error "MISSING_MODEL", sv, models⟩
  | some _ =>
    match alistLookup sv resource.scheme with
    | none => ⟨[], Except.error "MISSING_SAVER", sv, models⟩
    | some saver =>
      match saverRun saver with
      | Except.ok _ =>
          ⟨[⟨StateChangeType.saving, resource⟩, ⟨StateChangeType.saved, resource⟩],
           Except.ok (), sv, models⟩
      | Except.error e =>
          ⟨[⟨StateChangeType.saving, resource⟩], Except.error e, sv, models⟩

/-! ## Content provider registry and content resolution

Embeds `ResourceModelCollection.providers`,
`registerTextModelContentProvider`, the disposable it returns, and
`resolveTextModelContent`. -/

/-- The `providers : { [scheme: string]: ITextModelContentProvider[] }`
registry. -/
abbrev ProviderRegistry := List (String × List Provider)

/-- Provider list registered for a scheme (`[]` when absent, as in
`this.providers[resource.scheme] || []`). -/
def lookupProviders (reg : ProviderRegistry) (scheme : String) :
    List Provider :=
  (alistLookup reg scheme).getD []

/-- Embeds `registerTextModelContentProvider(scheme, provider)`:
`registry[scheme] || (registry[scheme] = [])` followed by
`providers.unshift(provider)`. -/
def registerTextModelContentProvider (reg : ProviderRegistry)
    (scheme : String) (p : Provider) : ProviderRegistry :=
  match alistLookup reg scheme with
  | some ps => alistSet reg scheme (p :: ps)
  | none => reg ++ [(scheme, [p])]

/-- Remove the first occurrence of the provider instance with identity
`i`, as `array.splice(array.indexOf(provider), 1)` does. -/
def removeFirstById : List Provider → Nat → List Provider
  | [], _ => []
  | q :: qs, i => if q.id = i then qs else q :: removeFirstById qs i

/-- Embeds the disposer closure returned by
`registerTextModelContentProvider`: a no-op when the scheme has no list
or the provider instance is not in it (`indexOf === -1`); otherwise it
splices the instance out and deletes the scheme entry if the list became
empty. -/
def disposeProviderRegistration (reg : ProviderRegistry) (scheme : String)
    (p : Provider) : ProviderRegistry :=
  match alistLookup reg scheme with
  | none => reg
  | some ps =>
    if ps.any (fun q => q.id = p.id) then
      let ps2 := removeFirstById ps p.id
      if ps2.isEmpty then alistRemove reg scheme
      else alistSet reg scheme ps2
    else reg

/-- Modelled from the spec: the helper `first` from
`vs/base/common/async` is not part of the excerpt; per the spec it
invokes the promise factories sequentially, stopping at the first truthy
result and producing `null` when all are exhausted. This definition runs
it over the factories `() => p.provideTextContent(resource)` built by
`resolveTextModelContent`, additionally recording, in order, the
identities of the providers actually invoked. `env i u` is the settled
result of provider `i`.`provideTextContent(u)`. -/
def runProviders (env : Nat → Uri → Option String) :
    List Provider → Uri → List Nat × Option String
  | [], _ => ([], none)
  | p :: ps, u =>
    match env p.id u with
    | some c => ([p.id], some c)
    | none =>
      let r := runProviders env ps u
      (p.id :: r.1, r.2)

/-- Embeds `resolveTextModelContent(key)` for `key = uriToString u`:
providers of the scheme (empty list when none) are raced sequentially
with `first`; a `null` outcome becomes the rejected promise
`resource is not available`. The first component is the list of provider
identities invoked, in order. -/
def resolveTextModelContent (env : Nat → Uri → Option String)
    (reg : ProviderRegistry) (u : Uri) : List Nat × Except String String :=
  let r := runProviders env (lookupProviders reg u.scheme) u
  match r.2 with
  | none => (r.1, Except.error "resource is not available")
  | some c => (r.1, Except.ok c)

/-! ## Reference-counted cache and `createModelReference`

The generic `ReferenceCollection` of `vs/base/common/lifecycle` is not
part of the excerpt; its state is modelled from the spec as a table of
entries `(key, reference count, construction outcome)` — the outcome is
shared by all holders of the key while the entry is live. -/

/-- One live cache entry per key: reference count and the settled
construction result (model identities are `Nat`). -/
abbrev CacheState := List (String × Nat × Except String Nat)

/-- Modelled from the spec: `ReferenceCollection.acquire(key)` — when no
live entry exists, create one with count 1, constructing the object via
the collection-supplied factory (`createReferencedObject`); otherwise
increment the count and share the in-flight or settled result. Returns
the new table and the result visible to this acquirer. -/
def cacheAcquire (c : CacheState) (construct : String → Except String Nat)
    (key : String) : CacheState × Except String Nat :=
  match alistLookup c key with
  | some e => (alistSet c key (e.1 + 1, e.2), e.2)
  | none =>
    let r := construct key
    ((key, 1, r) :: c, r)

/-- Modelled from the spec: releasing one reference — decrement the
count; on the 1 → 0 transition the entry is removed from the table (and
the destroy routine runs on the eventual object). -/
def cacheRelease (c : CacheState) (key : String) : CacheState :=
  match alistLookup c key with
  | none => c
  | some e =>
    if e.1 ≤ 1 then alistRemove c key
    else alistSet c key (e.1 - 1, e.2)

/-- Every live cache entry has at least one holder. This holds in every
reachable table: entries are created with count 1 and removed when the
count reaches 0. -/
def cacheWF (c : CacheState) : Prop :=
  alistKeysNodup c ∧ ∀ e ∈ c, 1 ≤ e.2.1

/-- Modelled from the spec: the untitled-buffer scheme constant
`UNTITLED_SCHEMA` of `vs/workbench/services/untitled`, absent from the
excerpt. -/
def UNTITLED_SCHEMA : String := "untitled"

/-- A reference handed out by `createModelReference`: the model, the
cache key it was resolved under, and whether its release is a no-op
(`ImmortalReference`). -/
structure ModelRef where
  modelId : Nat
  key : String
  immortal : Bool
deriving DecidableEq, Repr

/-- Embeds releasing a reference returned by `createModelReference`: an
`ImmortalReference` has `dispose() { }`, any other wraps
`() => ref.dispose()` over the cache handle. -/
def releaseModelRef (c : CacheState) (r : ModelRef) : CacheState :=
  if r.immortal then c else cacheRelease c r.key

/-- Embeds `createModelReference(resource)`. External collaborators:
`models` is the model service registry, `untitledLoad` the identity of
the model produced by `untitledEditorService.loadOrCreate`,
`mkResourceModel` the identity of a freshly instantiated
`ResourceEditorModel`, and `construct` the collection construction
routine run by the cache on a fresh key. Returns the cache state after
the call and the settled promise. -/
def createModelReference (models : List Model) (untitledLoad : Uri → Nat)
    (mkResourceModel : Uri → Nat) (construct : String → Except String Nat)
    (c : CacheState) (resource : Uri) : CacheState × Except String ModelRef :=
  if resource.scheme = UNTITLED_SCHEMA then
    (c, Except.ok ⟨untitledLoad resource, uriToString resource, true⟩)
  else if resource.scheme = "inmemory" then
    match getModel models resource with
    | none => (c, Except.error "Cant resolve inmemory resource")
    | some _ =>
      (c, Except.ok ⟨mkResourceModel resource, uriToString resource, true⟩)
  else
    let key := uriToString resource
    let a := cacheAcquire c construct key
    match a.2 with
    | Except.ok m => (a.1, Except.ok ⟨m, key, false⟩)
    | Except.error e => (cacheRelease a.1 key, Except.error e)

/-! ## Model change event emitter and dirty propagation

Embeds `ModelChangeEventEmitter` together with the model service
registry it observes, as a state machine over add/remove notifications,
and the façade subscription that turns its unified content change event
into `dirty` state events. -/

/-- Combined state: the model registry contents, the keys of the
`_modelListener` map, the content change subscriptions attached and not
yet disposed, and whether the emitter itself is still live (its registry
subscriptions and `_onDidChangeContent` not disposed). -/
structure EmitterState where
  models : List Model
  mapKeys : List Model
  activeSubs : List Model
  live : Bool
deriving DecidableEq, Repr

/-- The state at construction time. -/
def emitterInit : EmitterState := ⟨[], [], [], true⟩

/-- A model registry notification. -/
inductive MOp where
  | add (m : Model)
  | remove (m : Model)
deriving DecidableEq, Repr

/-- One registry notification. The registry itself always changes; the
emitter reacts (`_onModelAdded` / `_onModelRemoved`) only while its
registry subscriptions are live. `_onModelAdded` attaches a fresh
content change subscription and stores it under `m` (`Map.set` keeps the
key unique); `_onModelRemoved` disposes the stored subscription and
deletes the key. -/
def stepOp (s : EmitterState) : MOp → EmitterState
  | MOp.add m =>
    if s.live then
      { s with
        models := m :: s.models
        mapKeys := if s.mapKeys.contains m then s.mapKeys else m :: s.mapKeys
        activeSubs := m :: s.activeSubs }
    else { s with models := m :: s.models }
  | MOp.remove m =>
    if s.live then
      { s with
        models := s.models.erase m
        mapKeys := s.mapKeys.erase m
        activeSubs :=
          if s.mapKeys.contains m then s.activeSubs.erase m else s.activeSubs }
    else { s with models := s.models.erase m }

/-- Run a sequence of registry notifications. -/
def runOps (s : EmitterState) : List MOp → EmitterState
  | [] => s
  | op :: rest => runOps (stepOp s op) rest

/-- A notification sequence the model registry can produce from contents
`ms`: a model is added only while absent and removed only while
present. -/
def validOps (ms : List Model) : List MOp → Bool
  | [] => true
  | MOp.add m :: rest => !(ms.contains m) && validOps (m :: ms) rest
  | MOp.remove m :: rest => ms.contains m && validOps (ms.erase m) rest

/-- Embeds `ModelChangeEventEmitter.dispose()`: the registry
subscriptions are disposed, every subscription stored in
`_modelListener` is disposed, and `_onDidChangeContent` is disposed. -/
def disposeEmitter (s : EmitterState) : EmitterState :=
  { s with
    activeSubs := s.activeSubs.filter (fun m => !(s.mapKeys.contains m))
    live := false }

/-- The unified event stream: a content change of model `m` reaches
`onDidChangeContent` subscribers exactly when the per-model subscription
is still attached and the emitter is live. -/
def fireContent (s : EmitterState) (m : Model) : List Model :=
  if s.live && s.activeSubs.contains m then [m] else []

/-- Embeds the façade constructor subscription on
`_onDidChangeModelContent.onDidChangeContent`: a unified content change
for `model` fires `{ type: dirty, resource: model.uri }` exactly when
`_modelSaver` has the scheme of the model URI. -/
def onContentChangeHandler (sv : SaverMap) (m : Model) :
    List StateChangeEvent :=
  if (alistLookup sv m.uri.scheme).isSome then
    [⟨StateChangeType.dirty, m.uri⟩]
  else []

/-- State events the façade emits when model `m` changes in emitter
state `s`: the unified stream composed with the constructor handler. -/
def contentChangeOutput (s : EmitterState) (sv : SaverMap) (m : Model) :
    List StateChangeEvent :=
  (fireContent s m).flatMap (onContentChangeHandler sv)

/-! ## Helper lemmas about association lists -/

@[simp] theorem alistLookup_nil {α : Type} (k : String) :
    alistLookup ([] : List (String × α)) k = none := rfl

theorem alistLookup_cons {α : Type} (e : String × α) (l : List (String × α))
    (k : String) :
    alistLookup (e :: l) k = if e.1 = k then some e.2 else alistLookup l k := by
  simp only [alistLookup, List.find?]
  by_cases h : e.1 = k
  · simp [h]
  · simp [h]

theorem alistLookup_append_of_none {α : Type} (l l' : List (String × α))
    (k : String) (h : alistLookup l k = none) :
    alistLookup (l ++ l') k = alistLookup l' k := by
  induction l with
  | nil => simp
  | cons e t ih =>
    rw [List.cons_append, alistLookup_cons]
    rw [alistLookup_cons] at h
    by_cases he : e.1 = k
    · simp [he] at h
    · simp only [he, if_false] at h ⊢
      exact ih h

theorem alistLookup_eq_none_iff {α : Type} (l : List (String × α))
    (k : String) : alistLookup l k = none ↔ k ∉ l.map Prod.fst := by
  induction l with
  | nil => simp
  | cons e t ih =>
    rw [alistLookup_cons]
    by_cases he : e.1 = k
    · simp [he]
    · simp only [he, if_false, List.map_cons, List.mem_cons, ih]
      constructor
      · intro h hk
        rcases hk with hk | hk
        · exact he hk.symm
        · exact h hk
      · intro h
        exact fun hk => h (Or.inr hk)

theorem alistRemove_of_none {α : Type} (l : List (String × α)) (k : String)
    (h : alistLookup l k = none) : alistRemove l k = l := by
  rw [alistLookup_eq_none_iff] at h
  induction l with
  | nil => rfl
  | cons e t ih =>
    simp only [List.map_cons, List.mem_cons, not_or] at h
    have he : ¬ (e.1 = k) := fun hc => h.1 hc.symm
    have h2 := ih h.2
    simp only [alistRemove, List.filter_cons] at h2 ⊢
    rw [if_pos (by simp [he]), h2]

theorem alistSet_of_none {α : Type} (l : List (String × α)) (k : String)
    (v : α) (h : alistLookup l k = none) : alistSet l k v = l := by
  rw [alistLookup_eq_none_iff] at h
  induction l with
  | nil => rfl
  | cons e t ih =>
    simp only [List.map_cons, List.mem_cons, not_or] at h
    have he : ¬ (e.1 = k) := fun hc => h.1 hc.symm
    simp only [alistSet, List.map_cons, he, if_false]
    rw [alistSet] at ih
    rw [ih h.2]

theorem alistLookup_set_of_some {α : Type} (l : List (String × α))
    (k : String) (v w : α) (h : alistLookup l k = some w) :
    alistLookup (alistSet l k v) k = some v := by
  induction l with
  | nil => simp [alistLookup] at h
  | cons e t ih =>
    rw [alistLookup_cons] at h
    by_cases he : e.1 = k
    · simp [alistSet, he, alistLookup_cons]
    · simp only [he, if_false] at h
      simp only [alistSet, List.map_cons, he, if_false]
      rw [alistLookup_cons]
      simp only [he, if_false]
      exact ih h

theorem alistSet_self {α : Type} (l : List (String × α)) (k : String) (v : α)
    (hnd : alistKeysNodup l) (h : alistLookup l k = some v) :
    alistSet l k v = l := by
  induction l with
  | nil => rfl
  | cons e t ih =>
    rw [alistLookup_cons] at h
    simp only [alistKeysNodup, List.map_cons, List.nodup_cons] at hnd
    by_cases he : e.1 = k
    · rw [if_pos he] at h
      have h2 : e.2 = v := Option.some.inj h
      have hv : (k, v) = e := Prod.ext he.symm h2.symm
      have htk : alistLookup t k = none := by
        rw [alistLookup_eq_none_iff, ← he]
        exact hnd.1
      have ht := alistSet_of_none t k v htk
      simp only [alistSet, List.map_cons, if_pos he]
      rw [alistSet] at ht
      rw [ht, hv]
    · rw [if_neg he] at h
      have ht := ih hnd.2 h
      simp only [alistSet, List.map_cons, if_neg he]
      rw [alistSet] at ht
      rw [ht]

theorem alistKeys_set {α : Type} (l : List (String × α)) (k : String) (v : α) :
    (alistSet l k v).map Prod.fst = l.map Prod.fst := by
  induction l with
  | nil => rfl
  | cons e t ih =>
    simp only [alistSet, List.map_cons] at ih ⊢
    by_cases he : e.1 = k
    · simp [he, ih]
    · simp [he, ih]

theorem alistSet_set {α : Type} (l : List (String × α)) (k : String)
    (v w : α) : alistSet (alistSet l k v) k w = alistSet l k w := by
  simp only [alistSet, List.map_map]
  apply List.map_congr_left
  intro e _
  by_cases he : e.1 = k
  · simp [he]
  · simp [he]

/-! ## Further helper lemmas -/

theorem alistRemove_append {α : Type} (l l' : List (String × α))
    (k : String) :
    alistRemove (l ++ l') k = alistRemove l k ++ alistRemove l' k := by
  simp [alistRemove, List.filter_append]

theorem alistLookup_mem {α : Type} (l : List (String × α)) (k : String)
    (v : α) (h : alistLookup l k = some v) : (k, v) ∈ l := by
  simp only [alistLookup] at h
  cases hf : l.find? (fun e => e.1 = k) with
  | none => rw [hf] at h; simp at h
  | some e =>
    rw [hf] at h
    have h2 : e.2 = v := by simpa using h
    have hkey : e.1 = k := by
      have := List.find?_some hf
      simpa using this
    have hmem := List.mem_of_find?_eq_some hf
    have : e = (k, v) := by
      cases e with
      | mk a b =>
        simp only at hkey h2
        rw [hkey, h2]
    rw [← this]
    exact hmem

/-! ## Theorems for the claims -/

/-- C2: when a saver is already registered for scheme `S`, registering a
second saver for `S` throws (`there can only be one saver…`), and the
saver map is unchanged by the failed call — the original saver remains
registered. -/
theorem registerTextModelSaver_duplicate_fails
    (sv : SaverMap) (scheme : String) (s0 s2 : Nat)
    (h : alistLookup sv scheme = some s0) :
    (registerTextModelSaver sv scheme s2).1 = sv ∧
    (registerTextModelSaver sv scheme s2).2 =
      Except.error "there can only be one saver for the scheme" ∧
    alistLookup (registerTextModelSaver sv scheme s2).1 scheme = some s0 := by
  have hs : (alistLookup sv scheme).isSome = true := by rw [h]; rfl
  refine ⟨?_, ?_, ?_⟩
  · simp [registerTextModelSaver, hs]
  · simp [registerTextModelSaver, hs]
  · simp [registerTextModelSaver, hs, h]

/-- Witness for `registerTextModelSaver_duplicate_fails` at a concrete
saver map. -/
theorem registerTextModelSaver_duplicate_fails_witness :
    alistLookup [("file", 7)] "file" = some 7 ∧
    ((registerTextModelSaver [("file", 7)] "file" 9).1 = [("file", 7)] ∧
     (registerTextModelSaver [("file", 7)] "file" 9).2 =
       Except.error "there can only be one saver for the scheme" ∧
     alistLookup (registerTextModelSaver [("file", 7)] "file" 9).1 "file" =
       some 7) :=
  ⟨by decide,
   registerTextModelSaver_duplicate_fails [("file", 7)] "file" 7 9 (by decide)⟩

/-- C10: the disposable returned by `registerTextModelSaver` deletes by
scheme, not by saver identity: after registering saver `a` for a fresh
scheme, disposing it, and registering saver `b` for the same scheme,
invoking the first disposable a second time deletes the registration of
`b`. -/
theorem saverDisposal_keyed_by_scheme
    (sv : SaverMap) (scheme : String) (a b : Nat)
    (h : alistLookup sv scheme = none) :
    (registerTextModelSaver sv scheme a).2 = Except.ok scheme ∧
    disposeSaverRegistration (registerTextModelSaver sv scheme a).1 scheme
      = sv ∧
    alistLookup
      (registerTextModelSaver
        (disposeSaverRegistration
          (registerTextModelSaver sv scheme a).1 scheme) scheme b).1 scheme
      = some b ∧
    alistLookup
      (disposeSaverRegistration
        (registerTextModelSaver
          (disposeSaverRegistration
            (registerTextModelSaver sv scheme a).1 scheme) scheme b).1 scheme)
      scheme
      = none := by
  have hs : (alistLookup sv scheme).isSome = false := by rw [h]; rfl
  have hreg1 : (registerTextModelSaver sv scheme a).1 = sv ++ [(scheme, a)] := by
    simp [registerTextModelSaver, hs]
  have hrm : ∀ x : Nat,
      disposeSaverRegistration (sv ++ [(scheme, x)]) scheme = sv := by
    intro x
    rw [disposeSaverRegistration, alistRemove_append, alistRemove_of_none sv scheme h]
    simp [alistRemove]
  have hreg2 : (registerTextModelSaver sv scheme b).1 = sv ++ [(scheme, b)] := by
    simp [registerTextModelSaver, hs]
  refine ⟨?_, ?_, ?_, ?_⟩
  · simp [registerTextModelSaver, hs]
  · rw [hreg1]; exact hrm a
  · rw [hreg1, hrm a, hreg2]
    rw [alistLookup_append_of_none sv _ scheme h, alistLookup_cons]
    simp
  · rw [hreg1, hrm a, hreg2, hrm b]
    exact h

/-- Witness for `saverDisposal_keyed_by_scheme` at a concrete saver
map. -/
theorem saverDisposal_keyed_by_scheme_witness :
    alistLookup [("file", 1)] "demo" = none ∧
    ((registerTextModelSaver [("file", 1)] "demo" 5).2 = Except.ok "demo" ∧
     disposeSaverRegistration
       (registerTextModelSaver [("file", 1)] "demo" 5).1 "demo"
       = [("file", 1)] ∧
     alistLookup
       (registerTextModelSaver
         (disposeSaverRegistration
           (registerTextModelSaver [("file", 1)] "demo" 5).1 "demo") "demo" 6).1
       "demo" = some 6 ∧
     alistLookup
       (disposeSaverRegistration
         (registerTextModelSaver
           (disposeSaverRegistration
             (registerTextModelSaver [("file", 1)] "demo" 5).1 "demo")
           "demo" 6).1 "demo") "demo" = none) :=
  ⟨by decide, saverDisposal_keyed_by_scheme [("file", 1)] "demo" 5 6 (by decide)⟩

/-- C3: with a live model for the resource, a saver registered for its
scheme, and a successful saver run, `save` fires exactly
`{ type: saving }` followed by `{ type: saved }` for the resource,
succeeds, and touches neither the saver map nor the model registry. -/
theorem save_emits_saving_then_saved
    (models : List Model) (sv : SaverMap)
    (saverRun : Nat → Except String Unit) (u : Uri) (m : Model) (saver : Nat)
    (hm : getModel models u = some m)
    (hs : alistLookup sv u.scheme = some saver)
    (hr : saverRun saver = Except.ok ()) :
    save models sv saverRun u =
      ⟨[⟨StateChangeType.saving, u⟩, ⟨StateChangeType.saved, u⟩],
       Except.ok (), sv, models⟩ := by
  simp [save, hm, hs, hr]

/-- Witness for `save_emits_saving_then_saved` at a concrete model
registry, saver map and saver. -/
theorem save_emits_saving_then_saved_witness :
    getModel [⟨1, ⟨"demo", "x"⟩⟩] ⟨"demo", "x"⟩ = some ⟨1, ⟨"demo", "x"⟩⟩ ∧
    alistLookup [("demo", 4)] "demo" = some 4 ∧
    (fun _ => Except.ok () : Nat → Except String Unit) 4 = Except.ok () ∧
    save [⟨1, ⟨"demo", "x"⟩⟩] [("demo", 4)] (fun _ => Except.ok ())
        ⟨"demo", "x"⟩ =
      ⟨[⟨StateChangeType.saving, ⟨"demo", "x"⟩⟩,
        ⟨StateChangeType.saved, ⟨"demo", "x"⟩⟩],
       Except.ok (), [("demo", 4)], [⟨1, ⟨"demo", "x"⟩⟩]⟩ :=
  ⟨by decide, by decide, by decide,
   save_emits_saving_then_saved [⟨1, ⟨"demo", "x"⟩⟩] [("demo", 4)]
     (fun _ => Except.ok ()) ⟨"demo", "x"⟩ ⟨1, ⟨"demo", "x"⟩⟩ 4
     (by decide) (by decide) (by decide)⟩

/-- C4: `save` fails with `MISSING_MODEL` when the registry has no model
for the resource, and with `MISSING_SAVER` when no saver is registered
for its scheme; in both cases no state change event is fired and the
saver map and model registry are unchanged. -/
theorem save_missing_model_or_saver
    (models : List Model) (sv : SaverMap)
    (saverRun : Nat → Except String Unit) (u : Uri) :
    (getModel models u = none →
      save models sv saverRun u =
        ⟨[], Except.error "MISSING_MODEL", sv, models⟩) ∧
    (∀ m, getModel models u = some m → alistLookup sv u.scheme = none →
      save models sv saverRun u =
        ⟨[], Except.error "MISSING_SAVER", sv, models⟩) := by
  constructor
  · intro h
    simp [save, h]
  · intro m hm hs
    simp [save, hm, hs]

/-- Witness for `save_missing_model_or_saver`: both failure branches at
concrete inputs. -/
theorem save_missing_model_or_saver_witness :
    save [] [] (fun _ => Except.ok ()) ⟨"demo", "x"⟩ =
      ⟨[], Except.error "MISSING_MODEL", [], []⟩ ∧
    save [⟨1, ⟨"demo", "x"⟩⟩] [] (fun _ => Except.ok ()) ⟨"demo", "x"⟩ =
      ⟨[], Except.error "MISSING_SAVER", [], [⟨1, ⟨"demo", "x"⟩⟩]⟩ :=
  ⟨(save_missing_model_or_saver [] [] (fun _ => Except.ok ())
      ⟨"demo", "x"⟩).1 (by decide),
   (save_missing_model_or_saver [⟨1, ⟨"demo", "x"⟩⟩] [] (fun _ => Except.ok ())
      ⟨"demo", "x"⟩).2 ⟨1, ⟨"demo", "x"⟩⟩ (by decide) (by decide)⟩

/-- C7: a content change notification for a model whose URI scheme has a
registered saver makes the façade fire `{ type: dirty }` for that URI,
without deduplication — two consecutive content changes fire two dirty
events — while a content change for a model whose scheme has no saver
fires nothing. -/
theorem contentChange_dirty_no_dedup
    (s : EmitterState) (sv : SaverMap) (m : Model) :
    (s.live = true → s.activeSubs.contains m = true →
      (alistLookup sv m.uri.scheme).isSome = true →
      contentChangeOutput s sv m ++ contentChangeOutput s sv m =
        [⟨StateChangeType.dirty, m.uri⟩, ⟨StateChangeType.dirty, m.uri⟩]) ∧
    ((alistLookup sv m.uri.scheme).isSome = false →
      contentChangeOutput s sv m = []) := by
  constructor
  · intro hl hc hs
    have hc' : m ∈ s.activeSubs := by simpa using hc
    simp [contentChangeOutput, fireContent, onContentChangeHandler, hl, hc', hs]
  · intro hs
    have hs' : alistLookup sv m.uri.scheme = none := by
      cases hopt : alistLookup sv m.uri.scheme with
      | none => rfl
      | some x => rw [hopt] at hs; simp at hs
    simp only [contentChangeOutput, fireContent, onContentChangeHandler]
    by_cases hif : s.live = true ∧ m ∈ s.activeSubs
    · rw [if_pos (by simpa using hif)]
      simp [onContentChangeHandler, hs']
    · rw [if_neg (by simpa using hif)]
      rfl

/-- Witness for `contentChange_dirty_no_dedup`: a model with a saver for
its scheme fires two dirty events for two changes; one with no saver
fires none. -/
theorem contentChange_dirty_no_dedup_witness :
    contentChangeOutput
        ⟨[⟨1, ⟨"demo", "x"⟩⟩], [⟨1, ⟨"demo", "x"⟩⟩], [⟨1, ⟨"demo", "x"⟩⟩], true⟩
        [("demo", 4)] ⟨1, ⟨"demo", "x"⟩⟩ ++
      contentChangeOutput
        ⟨[⟨1, ⟨"demo", "x"⟩⟩], [⟨1, ⟨"demo", "x"⟩⟩], [⟨1, ⟨"demo", "x"⟩⟩], true⟩
        [("demo", 4)] ⟨1, ⟨"demo", "x"⟩⟩ =
      [⟨StateChangeType.dirty, ⟨"demo", "x"⟩⟩,
       ⟨StateChangeType.dirty, ⟨"demo", "x"⟩⟩] ∧
    contentChangeOutput
        ⟨[⟨1, ⟨"demo", "x"⟩⟩], [⟨1, ⟨"demo", "x"⟩⟩], [⟨1, ⟨"demo", "x"⟩⟩], true⟩
        [] ⟨1, ⟨"demo", "x"⟩⟩ = [] :=
  ⟨(contentChange_dirty_no_dedup
      ⟨[⟨1, ⟨"demo", "x"⟩⟩], [⟨1, ⟨"demo", "x"⟩⟩], [⟨1, ⟨"demo", "x"⟩⟩], true⟩
      [("demo", 4)] ⟨1, ⟨"demo", "x"⟩⟩).1 (by decide) (by decide) (by decide),
   (contentChange_dirty_no_dedup
      ⟨[⟨1, ⟨"demo", "x"⟩⟩], [⟨1, ⟨"demo", "x"⟩⟩], [⟨1, ⟨"demo", "x"⟩⟩], true⟩
      [] ⟨1, ⟨"demo", "x"⟩⟩).2 (by decide)⟩

/-- C8: for an `inmemory` URI, `createModelReference` rejects with
`Cant resolve inmemory resource` when the model registry has no model
for it (leaving the cache untouched), and otherwise resolves to an
immortal reference whose release is a no-op on any cache state. -/
theorem createModelReference_inmemory
    (models : List Model) (untitledLoad mkResourceModel : Uri → Nat)
    (construct : String → Except String Nat) (c : CacheState) (u : Uri)
    (h : u.scheme = "inmemory") :
    (getModel models u = none →
      createModelReference models untitledLoad mkResourceModel construct c u
        = (c, Except.error "Cant resolve inmemory resource")) ∧
    (∀ m, getModel models u = some m →
      createModelReference models untitledLoad mkResourceModel construct c u
          = (c, Except.ok ⟨mkResourceModel u, uriToString u, true⟩) ∧
        ∀ c' : CacheState,
          releaseModelRef c' ⟨mkResourceModel u, uriToString u, true⟩ = c') := by
  have hne : ¬ "inmemory" = UNTITLED_SCHEMA := by
    rw [UNTITLED_SCHEMA]
    decide
  constructor
  · intro hm
    simp [createModelReference, h, hne, hm]
  · intro m hm
    constructor
    · simp [createModelReference, h, hne, hm]
    · intro c'
      simp [releaseModelRef]

/-- Witness for `createModelReference_inmemory`: both the missing-model
rejection and the immortal-reference success at concrete inputs. -/
theorem createModelReference_inmemory_witness :
    createModelReference [] (fun _ => 0) (fun _ => 9)
        (fun _ => Except.ok 0) [] ⟨"inmemory", "x"⟩
      = ([], Except.error "Cant resolve inmemory resource") ∧
    createModelReference [⟨1, ⟨"inmemory", "x"⟩⟩] (fun _ => 0) (fun _ => 9)
        (fun _ => Except.ok 0) [] ⟨"inmemory", "x"⟩
      = ([], Except.ok ⟨9, uriToString ⟨"inmemory", "x"⟩, true⟩) ∧
    releaseModelRef [("inmemory://x", 3, Except.ok 5)]
        ⟨9, uriToString ⟨"inmemory", "x"⟩, true⟩
      = [("inmemory://x", 3, Except.ok 5)] :=
  ⟨(createModelReference_inmemory [] (fun _ => 0) (fun _ => 9)
      (fun _ => Except.ok 0) [] ⟨"inmemory", "x"⟩ rfl).1 (by decide),
   ((createModelReference_inmemory [⟨1, ⟨"inmemory", "x"⟩⟩] (fun _ => 0)
      (fun _ => 9) (fun _ => Except.ok 0) [] ⟨"inmemory", "x"⟩ rfl).2
      ⟨1, ⟨"inmemory", "x"⟩⟩ (by decide)).1,
   ((createModelReference_inmemory [⟨1, ⟨"inmemory", "x"⟩⟩] (fun _ => 0)
      (fun _ => 9) (fun _ => Except.ok 0) [] ⟨"inmemory", "x"⟩ rfl).2
      ⟨1, ⟨"inmemory", "x"⟩⟩ (by decide)).2
     [("inmemory://x", 3, Except.ok 5)]⟩

/-- In a well-formed cache table, releasing right after acquiring
restores the table exactly. -/
theorem cacheRelease_cacheAcquire (c : CacheState)
    (construct : String → Except String Nat) (key : String)
    (hwf : cacheWF c) :
    cacheRelease (cacheAcquire c construct key).1 key = c := by
  cases hl : alistLookup c key with
  | none =>
    have hacq : (cacheAcquire c construct key).1
        = (key, 1, construct key) :: c := by
      simp [cacheAcquire, hl]
    have hl2 : alistLookup ((key, 1, construct key) :: c) key
        = some (1, construct key) := by
      rw [alistLookup_cons]
      simp
    have hrm : alistRemove ((key, 1, construct key) :: c) key = c := by
      simp only [alistRemove, List.filter_cons]
      rw [if_neg (by simp)]
      have h3 := alistRemove_of_none c key hl
      rw [alistRemove] at h3
      rw [h3]
    rw [hacq]
    simp only [cacheRelease, hl2]
    simpa using hrm
  | some e =>
    have hmem := alistLookup_mem c key e hl
    have hone : 1 ≤ e.1 := hwf.2 (key, e) hmem
    have hacq : (cacheAcquire c construct key).1
        = alistSet c key (e.1 + 1, e.2) := by
      simp [cacheAcquire, hl]
    have hl2 : alistLookup (alistSet c key (e.1 + 1, e.2)) key
        = some (e.1 + 1, e.2) :=
      alistLookup_set_of_some c key (e.1 + 1, e.2) e hl
    rw [hacq]
    simp only [cacheRelease, hl2]
    rw [if_neg (by omega)]
    simp only [Nat.add_sub_cancel]
    rw [alistSet_set]
    exact alistSet_self c key e hwf.1 hl

/-- C5: for a URI that is neither untitled nor `inmemory`, a failing
resource model construction makes `createModelReference` release the
cache handle it acquired before propagating the rejection: the call
returns the original error and leaves the cache table exactly as it
was — no leaked reference count on the key. -/
theorem createModelReference_failure_no_leak
    (models : List Model) (untitledLoad mkResourceModel : Uri → Nat)
    (construct : String → Except String Nat) (c : CacheState) (u : Uri)
    (e : String)
    (h1 : ¬ u.scheme = UNTITLED_SCHEMA) (h2 : ¬ u.scheme = "inmemory")
    (hwf : cacheWF c)
    (herr : (cacheAcquire c construct (uriToString u)).2 = Except.error e) :
    createModelReference models untitledLoad mkResourceModel construct c u
      = (c, Except.error e) := by
  rw [createModelReference, if_neg h1, if_neg h2]
  simp only [herr]
  rw [cacheRelease_cacheAcquire c construct (uriToString u) hwf]

/-- Witness for `createModelReference_failure_no_leak`: a construction
failure on a fresh key and on a key with a live prior holder, both
leaving the table untouched. -/
theorem createModelReference_failure_no_leak_witness :
    ¬ (Uri.mk "demo" "x").scheme = UNTITLED_SCHEMA ∧
    ¬ (Uri.mk "demo" "x").scheme = "inmemory" ∧
    cacheWF [("demo://y", 2, Except.ok 5)] ∧
    (cacheAcquire [("demo://y", 2, Except.ok 5)]
        (fun _ => Except.error "resource is not available")
        (uriToString ⟨"demo", "x"⟩)).2
      = Except.error "resource is not available" ∧
    createModelReference [] (fun _ => 0) (fun _ => 9)
        (fun _ => Except.error "resource is not available")
        [("demo://y", 2, Except.ok 5)] ⟨"demo", "x"⟩
      = ([("demo://y", 2, Except.ok 5)],
         Except.error "resource is not available") := by
  have hwfc : cacheWF [("demo://y", 2, Except.ok 5)] := by
    constructor
    · simp [alistKeysNodup]
    · intro x hx
      simp only [List.mem_singleton] at hx
      rw [hx]
      decide
  refine ⟨by decide, by decide, hwfc, by decide, ?_⟩
  exact createModelReference_failure_no_leak [] (fun _ => 0) (fun _ => 9)
    (fun _ => Except.error "resource is not available")
    [("demo://y", 2, Except.ok 5)] ⟨"demo", "x"⟩
    "resource is not available" (by decide) (by decide) hwfc (by decide)

/-- Characterization of the sequential provider race: the providers
invoked are exactly the prefix of failing ones followed by the first
succeeding one, and the outcome is the content of that first success. -/
theorem runProviders_eq (env : Nat → Uri → Option String) (u : Uri) :
    ∀ ps : List Provider,
      runProviders env ps u =
        ((ps.takeWhile (fun p => (env p.id u).isNone)).map Provider.id ++
           ((ps.find? (fun p => (env p.id u).isSome)).map Provider.id).toList,
         (ps.find? (fun p => (env p.id u).isSome)).bind (fun p => env p.id u))
  | [] => by simp [runProviders]
  | p :: ps => by
    cases he : env p.id u with
    | some c =>
      simp only [runProviders, he]
      rw [List.takeWhile_cons, List.find?_cons]
      simp [he]
    | none =>
      simp only [runProviders, he]
      rw [runProviders_eq env u ps]
      rw [List.takeWhile_cons, List.find?_cons]
      simp [he]

/-- C1: resolution of a non-file URI runs the registered providers of
its scheme sequentially in most-recently-registered-first order —
registration puts the new provider at the front of the list the race
consults — invoking exactly the providers up to and including the first
that returns content, succeeding with that content; when every provider
returns nothing (in particular when none is registered) it rejects with
`resource is not available`. -/
theorem resolveTextModelContent_first_match (env : Nat → Uri → Option String)
    (reg : ProviderRegistry) (u : Uri) :
    (∀ (s : String) (p : Provider),
      lookupProviders (registerTextModelContentProvider reg s p) s
        = p :: lookupProviders reg s) ∧
    (resolveTextModelContent env reg u).1 =
      ((lookupProviders reg u.scheme).takeWhile
          (fun p => (env p.id u).isNone)).map Provider.id ++
        (((lookupProviders reg u.scheme).find?
            (fun p => (env p.id u).isSome)).map Provider.id).toList ∧
    (resolveTextModelContent env reg u).2 =
      (match ((lookupProviders reg u.scheme).find?
          (fun p => (env p.id u).isSome)).bind (fun p => env p.id u) with
       | some c => Except.ok c
       | none => Except.error "resource is not available") := by
  refine ⟨?_, ?_, ?_⟩
  · intro s p
    cases hl : alistLookup reg s with
    | some ps =>
      rw [registerTextModelContentProvider, hl]
      rw [lookupProviders, alistLookup_set_of_some reg s (p :: ps) ps hl]
      rw [lookupProviders, hl]
      rfl
    | none =>
      rw [registerTextModelContentProvider, hl]
      rw [lookupProviders, alistLookup_append_of_none reg _ s hl]
      rw [alistLookup_cons]
      rw [lookupProviders, hl]
      simp
  · rw [resolveTextModelContent, runProviders_eq env u]
    cases ((lookupProviders reg u.scheme).find?
        (fun p => (env p.id u).isSome)).bind (fun p => env p.id u) with
    | none => rfl
    | some c => rfl
  · rw [resolveTextModelContent, runProviders_eq env u]
    cases ((lookupProviders reg u.scheme).find?
        (fun p => (env p.id u).isSome)).bind (fun p => env p.id u) with
    | none => rfl
    | some c => rfl

/-- The provider registry states the service can reach: scheme keys are
pairwise distinct and no scheme maps to an empty list (the disposer
deletes the entry when its list empties, and registration never creates
an empty list). -/
def registryWF (reg : ProviderRegistry) : Prop :=
  alistKeysNodup reg ∧ ∀ e ∈ reg, ¬ e.2 = []

/-- Registering a provider and disposing the returned handle restores
the registry exactly, deleting the scheme entry if it was created by the
registration. -/
theorem disposeProvider_registerProvider (reg : ProviderRegistry)
    (s : String) (p : Provider) (hwf : registryWF reg) :
    disposeProviderRegistration (registerTextModelContentProvider reg s p) s p
      = reg := by
  cases hl : alistLookup reg s with
  | none =>
    rw [registerTextModelContentProvider, hl]
    have hl2 : alistLookup (reg ++ [(s, [p])]) s = some [p] := by
      rw [alistLookup_append_of_none reg _ s hl, alistLookup_cons]
      simp
    simp only [disposeProviderRegistration, hl2]
    rw [if_pos (by simp), removeFirstById]
    rw [if_pos rfl]
    simp only [List.isEmpty_nil, if_pos rfl]
    rw [alistRemove_append, alistRemove_of_none reg s hl]
    simp [alistRemove]
  | some ps =>
    have hmem := alistLookup_mem reg s ps hl
    have hne : ¬ ps = [] := hwf.2 (s, ps) hmem
    rw [registerTextModelContentProvider, hl]
    have hl2 : alistLookup (alistSet reg s (p :: ps)) s = some (p :: ps) :=
      alistLookup_set_of_some reg s (p :: ps) ps hl
    simp only [disposeProviderRegistration, hl2]
    rw [if_pos (by simp), removeFirstById]
    rw [if_pos rfl]
    rw [if_neg (by simpa [List.isEmpty_iff] using hne)]
    rw [alistSet_set]
    exact alistSet_self reg s ps hwf.1 hl

/-- C6 (amended): registering provider `p` for scheme `s` and then
disposing the returned handle removes exactly that provider instance,
restoring the whole registry to its prior contents — so every other
provider of `s` remains registered and reachable, and the scheme entry
is deleted when the registration had created it. A second disposal of
the same handle is a no-op provided the same provider instance is no
longer in the scheme list (in particular whenever it had not been
registered more than once). -/
theorem registerProvider_dispose_exact (reg : ProviderRegistry)
    (s : String) (p : Provider) (hwf : registryWF reg) :
    disposeProviderRegistration (registerTextModelContentProvider reg s p) s p
      = reg ∧
    lookupProviders
      (disposeProviderRegistration
        (registerTextModelContentProvider reg s p) s p) s
      = lookupProviders reg s ∧
    (alistLookup reg s = none →
      alistLookup
        (disposeProviderRegistration
          (registerTextModelContentProvider reg s p) s p) s = none) ∧
    ((lookupProviders reg s).any (fun q => q.id = p.id) = false →
      disposeProviderRegistration
        (disposeProviderRegistration
          (registerTextModelContentProvider reg s p) s p) s p
        = disposeProviderRegistration
            (registerTextModelContentProvider reg s p) s p) := by
  have hrestore := disposeProvider_registerProvider reg s p hwf
  refine ⟨hrestore, by rw [hrestore], fun h => by rw [hrestore]; exact h, ?_⟩
  intro hany
  rw [hrestore]
  cases hl : alistLookup reg s with
  | none => simp [disposeProviderRegistration, hl]
  | some ps =>
    have hps : lookupProviders reg s = ps := by rw [lookupProviders, hl]; rfl
    rw [hps] at hany
    simp [disposeProviderRegistration, hl, hany]

/-- Witness for `registerProvider_dispose_exact` on a registry already
holding another provider for the scheme and an entry for a second
scheme. -/
theorem registerProvider_dispose_exact_witness :
    registryWF [("s", [⟨1⟩]), ("t", [⟨2⟩])] ∧
    (disposeProviderRegistration
        (registerTextModelContentProvider
          [("s", [⟨1⟩]), ("t", [⟨2⟩])] "s" ⟨0⟩) "s" ⟨0⟩
      = [("s", [⟨1⟩]), ("t", [⟨2⟩])] ∧
     lookupProviders
        (disposeProviderRegistration
          (registerTextModelContentProvider
            [("s", [⟨1⟩]), ("t", [⟨2⟩])] "s" ⟨0⟩) "s" ⟨0⟩) "s"
      = lookupProviders [("s", [⟨1⟩]), ("t", [⟨2⟩])] "s" ∧
     (alistLookup ([("s", [⟨1⟩]), ("t", [⟨2⟩])] : ProviderRegistry) "s" = none →
      alistLookup
        (disposeProviderRegistration
          (registerTextModelContentProvider
            [("s", [⟨1⟩]), ("t", [⟨2⟩])] "s" ⟨0⟩) "s" ⟨0⟩) "s" = none) ∧
     ((lookupProviders [("s", [⟨1⟩]), ("t", [⟨2⟩])] "s").any
          (fun q => q.id = (Provider.mk 0).id) = false →
      disposeProviderRegistration
        (disposeProviderRegistration
          (registerTextModelContentProvider
            [("s", [⟨1⟩]), ("t", [⟨2⟩])] "s" ⟨0⟩) "s" ⟨0⟩) "s" ⟨0⟩
        = disposeProviderRegistration
            (registerTextModelContentProvider
              [("s", [⟨1⟩]), ("t", [⟨2⟩])] "s" ⟨0⟩) "s" ⟨0⟩)) := by
  have hwf : registryWF [("s", [⟨1⟩]), ("t", [⟨2⟩])] := by
    constructor
    · simp [alistKeysNodup]
    · decide
  exact ⟨hwf, registerProvider_dispose_exact [("s", [⟨1⟩]), ("t", [⟨2⟩])]
    "s" ⟨0⟩ hwf⟩

/-- C6 counterexample: when the very same provider instance is
registered twice for a scheme, invoking one registration handle twice is
not a no-op — the second invocation removes the remaining occurrence
(`indexOf` finds the identical instance again). -/
theorem disposeProvider_second_dispose_not_noop :
    ¬ (disposeProviderRegistration
        (disposeProviderRegistration
          (registerTextModelContentProvider
            (registerTextModelContentProvider [] "s" ⟨0⟩) "s" ⟨0⟩)
          "s" ⟨0⟩)
        "s" ⟨0⟩
      = disposeProviderRegistration
          (registerTextModelContentProvider
            (registerTextModelContentProvider [] "s" ⟨0⟩) "s" ⟨0⟩)
          "s" ⟨0⟩) := by
  decide

/-- Structural invariant of the live emitter, preserved by every
registry notification sequence the model registry can produce: the
listener map keys, the attached subscriptions and the registry contents
coincide, without duplicates. -/
theorem runOps_invariant : ∀ (ops : List MOp) (s : EmitterState),
    s.live = true → s.mapKeys = s.models → s.activeSubs = s.models →
    s.models.Nodup → validOps s.models ops = true →
    (runOps s ops).live = true ∧
    (runOps s ops).mapKeys = (runOps s ops).models ∧
    (runOps s ops).activeSubs = (runOps s ops).models ∧
    (runOps s ops).models.Nodup
  | [], _, hl, hk, ha, hd, _ => ⟨hl, hk, ha, hd⟩
  | MOp.add m :: rest, s, hl, hk, ha, hd, hv => by
    rw [validOps, Bool.and_eq_true] at hv
    have hcm : s.models.contains m = false := by
      cases hc : s.models.contains m with
      | false => rfl
      | true => rw [hc] at hv; simp at hv
    have hmem : m ∉ s.models := by simpa using hcm
    have hck : s.mapKeys.contains m = false := by rw [hk]; exact hcm
    have hkm : m ∉ s.mapKeys := by simpa using hck
    have hstep : stepOp s (MOp.add m) =
        { s with
          models := m :: s.models
          mapKeys := m :: s.mapKeys
          activeSubs := m :: s.activeSubs } := by
      simp [stepOp, hl, hkm]
    rw [runOps, hstep]
    exact runOps_invariant rest _ hl (by simp [hk]) (by simp [ha])
      (List.nodup_cons.2 ⟨hmem, hd⟩) hv.2
  | MOp.remove m :: rest, s, hl, hk, ha, hd, hv => by
    rw [validOps, Bool.and_eq_true] at hv
    have hck : s.mapKeys.contains m = true := by rw [hk]; exact hv.1
    have hkm : m ∈ s.mapKeys := by simpa using hck
    have hstep : stepOp s (MOp.remove m) =
        { s with
          models := s.models.erase m
          mapKeys := s.mapKeys.erase m
          activeSubs := s.activeSubs.erase m } := by
      simp [stepOp, hl, hkm]
    rw [runOps, hstep]
    exact runOps_invariant rest _ hl (by simp [hk]) (by simp [ha])
      (hd.erase m) hv.2

/-- Every element survives filtering by non-membership in the list
itself — disposing every subscription stored in the map detaches them
all when the invariant holds. -/
theorem filter_not_contains_self (l : List Model) :
    l.filter (fun m => !(l.contains m)) = [] := by
  rw [List.filter_eq_nil_iff]
  intro a ha
  simp [ha]

/-- C9: after any add/remove notification sequence the model registry
can produce, the emitter holds exactly one listener per registered model
(map keys and attached subscriptions both coincide with the
duplicate-free registry contents — removing a model disposed and forgot
its listener); disposing the emitter then detaches every remaining
subscription and stops the unified content change stream. -/
theorem modelChangeEmitter_listener_invariant (ops : List MOp)
    (h : validOps [] ops = true) :
    (runOps emitterInit ops).mapKeys = (runOps emitterInit ops).models ∧
    (runOps emitterInit ops).activeSubs = (runOps emitterInit ops).models ∧
    (runOps emitterInit ops).models.Nodup ∧
    (disposeEmitter (runOps emitterInit ops)).activeSubs = [] ∧
    (disposeEmitter (runOps emitterInit ops)).live = false ∧
    ∀ m : Model, fireContent (disposeEmitter (runOps emitterInit ops)) m = [] := by
  have hinv := runOps_invariant ops emitterInit rfl rfl rfl List.nodup_nil h
  refine ⟨hinv.2.1, hinv.2.2.1, hinv.2.2.2, ?_, rfl, ?_⟩
  · rw [disposeEmitter]
    simp only
    rw [hinv.2.2.1, hinv.2.1]
    exact filter_not_contains_self (runOps emitterInit ops).models
  · intro m
    rw [fireContent, disposeEmitter]
    simp

/-- Witness for `modelChangeEmitter_listener_invariant` on a concrete
notification sequence: add two models, remove the first, then query the
stream for the remaining model after disposal. -/
theorem modelChangeEmitter_listener_invariant_witness :
    validOps [] [MOp.add ⟨1, ⟨"file", "a"⟩⟩, MOp.add ⟨2, ⟨"file", "b"⟩⟩,
        MOp.remove ⟨1, ⟨"file", "a"⟩⟩] = true ∧
    ((runOps emitterInit [MOp.add ⟨1, ⟨"file", "a"⟩⟩,
        MOp.add ⟨2, ⟨"file", "b"⟩⟩, MOp.remove ⟨1, ⟨"file", "a"⟩⟩]).mapKeys
      = (runOps emitterInit [MOp.add ⟨1, ⟨"file", "a"⟩⟩,
          MOp.add ⟨2, ⟨"file", "b"⟩⟩, MOp.remove ⟨1, ⟨"file", "a"⟩⟩]).models) ∧
    (disposeEmitter (runOps emitterInit [MOp.add ⟨1, ⟨"file", "a"⟩⟩,
        MOp.add ⟨2, ⟨"file", "b"⟩⟩,
        MOp.remove ⟨1, ⟨"file", "a"⟩⟩])).activeSubs = [] ∧
    fireContent (disposeEmitter (runOps emitterInit
        [MOp.add ⟨1, ⟨"file", "a"⟩⟩, MOp.add ⟨2, ⟨"file", "b"⟩⟩,
         MOp.remove ⟨1, ⟨"file", "a"⟩⟩])) ⟨2, ⟨"file", "b"⟩⟩ = [] := by
  have hv : validOps [] [MOp.add ⟨1, ⟨"file", "a"⟩⟩,
      MOp.add ⟨2, ⟨"file", "b"⟩⟩, MOp.remove ⟨1, ⟨"file", "a"⟩⟩] = true := by
    decide
  have h := modelChangeEmitter_listener_invariant
    [MOp.add ⟨1, ⟨"file", "a"⟩⟩, MOp.add ⟨2, ⟨"file", "b"⟩⟩,
     MOp.remove ⟨1, ⟨"file", "a"⟩⟩] hv
  exact ⟨hv, h.1, h.2.2.2.1, h.2.2.2.2.2 ⟨2, ⟨"file", "b"⟩⟩⟩

end TextModelResolver
